import Mathlib

/-!
Verification development for the `licentaDedup` deduplicating filesystem.

The Python sources (`chunker.py`, `storage.py`, `main.py`, `garbageCollector.py`)
are shallowly embedded below: byte buffers are `List Nat` (each element a byte
value), Python dicts are association lists with Python's insertion-order
assignment semantics, machine integers are `Nat`/`Int` with explicit masking
where the source masks, and fallible operations return `Except`.

SHA-256 digests are modelled by the chunk's own byte sequence: the digest is
used by the code only as an injective identity for chunk contents, and the
collision-freedom of SHA-256 is exactly what makes that identification sound.
-/

namespace Dedup

/-! ## chunker.py -/

def WINDOW_SIZE : Nat := 48
def POLYNOMIAL : Nat := 0x3DA3358B4DC173
def TARGET_MASK : Nat := 0xFFF
def MAX_CHUNK_SIZE : Nat := 1024 * 16
/-- `chunker.py` line 8: `MIN_CHUNK_SIZE = 20 #1 KB`. The numeric value in the
source is 20; the trailing comment (and the spec) say 1 KB. -/
def MIN_CHUNK_SIZE : Nat := 20

/-- One shift-xor round of `Chunker._precompute_table`'s inner loop:
`hash_val = (hash_val >> 1) ^ POLYNOMIAL` when odd, else `hash_val >> 1`. -/
def tableRound (h : Nat) : Nat :=
  if h % 2 = 1 then (h / 2) ^^^ POLYNOMIAL else h / 2

/-- `Chunker._precompute_table` entry for byte value `i`: 8 shift-xor rounds. -/
def tableEntry (i : Nat) : Nat := tableRound^[8] i

/-- The precomputed 256-entry table (`self.table`). -/
def table : List Nat := (List.range 256).map tableEntry

/-- `self.table[b]` lookup. -/
def tableGet (b : Nat) : Nat := table.getD b 0

/-- Per-thread rolling state (`threading.local()` fields `window`, `hash`,
`window_pos`), as initialised by `Chunker._init_thread_local`. -/
structure ChunkerState where
  window : List Nat
  hash : Nat
  window_pos : Nat
  deriving Repr, DecidableEq

/-- `Chunker._init_thread_local`: zero window of 48 bytes, hash 0, position 0.
This is the state a thread's local storage holds on first use. -/
def initChunkerState : ChunkerState :=
  { window := List.replicate WINDOW_SIZE 0, hash := 0, window_pos := 0 }

/-- `Chunker._update_hash(byte)`: drop `window[pos]`, store the incoming byte,
advance `pos` mod 48, and update
`hash = ((hash << 8) & 0xFFFFFFFFFFFFFFFF) ^ table[byte] ^ table[dropped]`.
Note the source masks with the 64-bit mask `0xFFFFFFFFFFFFFFFF`. -/
def update_hash (s : ChunkerState) (byte : Nat) : ChunkerState :=
  let dropped := s.window.getD s.window_pos 0
  { window := s.window.set s.window_pos byte
    window_pos := (s.window_pos + 1) % WINDOW_SIZE
    hash := ((s.hash <<< 8) &&& 0xFFFFFFFFFFFFFFFF) ^^^ tableGet byte ^^^ tableGet dropped }

/-- The `while i < end` boundary-search loop of `Chunker.determine_chunk_size`.
`fuel` is the exact remaining trip count `iEnd - i`, so `fuel = 0` coincides
with the loop's exit condition `i ≥ end` and the fall-through return
`end - start`. Returns the chunk length together with the thread state the
loop leaves behind. -/
def boundary_loop (data : List Nat) (start iEnd : Nat) :
    ChunkerState → Nat → Nat → Nat × ChunkerState
  | s, _, 0 => (iEnd - start, s)
  | s, i, fuel + 1 =>
    let s' := update_hash s (data.getD i 0)
    if s'.hash &&& TARGET_MASK = 0 then (i - start, s')
    else boundary_loop data start iEnd s' (i + 1) fuel

/-- `Chunker.determine_chunk_size(data, start)` acting on an explicit thread
state `s` (the Python method reads and mutates the calling thread's local
state; here the state is passed and returned). -/
def determine_chunk_size (s : ChunkerState) (data : List Nat) (start : Nat) :
    Nat × ChunkerState :=
  let iEnd := min (start + MAX_CHUNK_SIZE) data.length
  let windowFill := min WINDOW_SIZE (data.length - start)
  let s1 := (List.range windowFill).foldl
    (fun st j => update_hash st (data.getD (start + j) 0)) s
  let i0 := start + max windowFill MIN_CHUNK_SIZE
  boundary_loop data start iEnd s1 i0 (iEnd - i0)

/-! ## Association lists with Python-dict assignment semantics

Python dict assignment keeps an existing key at its position and appends a
new key at the end; deletion removes the key. -/

def lookupA {α β : Type} [DecidableEq α] : List (α × β) → α → Option β
  | [], _ => none
  | (a, b) :: t, k => if a = k then some b else lookupA t k

def setA {α β : Type} [DecidableEq α] (l : List (α × β)) (k : α) (v : β) :
    List (α × β) :=
  if (lookupA l k).isSome then
    l.map (fun p => if p.1 = k then (k, v) else p)
  else l ++ [(k, v)]

def delA {α β : Type} [DecidableEq α] (l : List (α × β)) (k : α) : List (α × β) :=
  l.filter (fun p => p.1 ≠ k)

/-- `d.update(other)`: assign each of `other`'s pairs in order. -/
def updateA {α β : Type} [DecidableEq α] (l other : List (α × β)) : List (α × β) :=
  other.foldl (fun acc p => setA acc p.1 p.2) l

/-- `m.setdefault(k, []).append(x)`: append `x` to the list stored at `k`,
creating the entry when absent. -/
def appendAtA {α β : Type} [DecidableEq α] (l : List (α × List β)) (k : α) (x : β) :
    List (α × List β) :=
  if (lookupA l k).isSome then
    l.map (fun p => if p.1 = k then (p.1, p.2 ++ [x]) else p)
  else l ++ [(k, [x])]

/-! ## storage.py -/

/-- A SHA-256 hex digest, modelled by the hashed chunk's bytes (injective). -/
abbrev Digest := List Nat

/-- A manifest: ordered list of `(digest, logical_length)`. -/
abbrev Manifest := List (Digest × Nat)

/-- A Chunk Index entry `(container_name, offset, length)`. -/
abbrev ChunkMeta := String × Nat × Nat

/-- `path.strip("/")`: drop leading and trailing `'/'` characters. -/
def stripSlashes (l : List Char) : List Char :=
  ((l.dropWhile (· = '/')).reverse.dropWhile (· = '/')).reverse

/-- `path.strip("/").replace("/", "_") + ".container"`
(`storage.py` lines 41 and 49, `main.py` line 138). -/
def container_name_of (path : String) : String :=
  String.mk ((stripSlashes path.toList).map (fun c => if c = '/' then '_' else c))
    ++ ".container"

/-- The state of a `ChunkStorage`: the two in-memory metadata caches, the
container files inside `.dedup_store/`, and the content of the on-disk
`chunk_metadata.json` (`none` = absent or unparseable). The background dump
thread mirrors the in-memory maps to disk asynchronously; the only claim that
observes the on-disk index concerns the garbage collector, which rewrites it
synchronously inside `collect_garbage`. -/
structure Storage where
  file_chunks : List (String × Manifest)
  chunk_metadata : List (Digest × ChunkMeta)
  containers : List (String × List Nat)
  disk_chunk_metadata : Option (List (Digest × ChunkMeta))
  deriving Repr, DecidableEq

/-- `ChunkStorage.store_file_chunks(path, chunks)`. -/
def store_file_chunks (s : Storage) (path : String) (chunks : Manifest) : Storage :=
  { s with file_chunks := setA s.file_chunks path chunks }

/-- The per-entry translation inside `write_chunk_metadata`: a staged
`(path, offset, size)` becomes `(container_name, offset, size)`. -/
def chunk_meta_of_staged (v : String × Nat × Nat) : ChunkMeta :=
  (container_name_of v.1, v.2.1, v.2.2)

/-- `ChunkStorage.write_chunk_metadata(new_metadata)`: translate each staged
`(path, offset, size)` to `(container_name, offset, size)` and `dict.update`
the in-memory index with the result. -/
def write_chunk_metadata (s : Storage) (new_metadata : List (Digest × (String × Nat × Nat))) :
    Storage :=
  let transformed := new_metadata.map (fun p => (p.1, chunk_meta_of_staged p.2))
  { s with chunk_metadata := updateA s.chunk_metadata transformed }

/-- File write at an offset with `r+b` semantics: seeking past the end
zero-fills the gap, then the data overwrites in place. -/
def writeAt (old : List Nat) (offset : Nat) (data : List Nat) : List Nat :=
  let padded := old ++ List.replicate (offset - old.length) 0
  padded.take offset ++ data ++ padded.drop (offset + data.length)

/-- `ChunkStorage.write_container(path, data, offset)`: open (create if
absent) the container named after `path` and write `data` at `offset`. -/
def write_container (s : Storage) (path : String) (data : List Nat) (offset : Nat) :
    Storage :=
  let cname := container_name_of path
  let old := (lookupA s.containers cname).getD []
  { s with containers := setA s.containers cname (writeAt old offset data) }

/-- `ChunkStorage.get_chunk_metadata(chunk_hash)`. -/
def get_chunk_metadata (s : Storage) (h : Digest) : Option ChunkMeta :=
  lookupA s.chunk_metadata h

/-- `ChunkStorage.chunk_exists(chunk_hash)`. -/
def chunk_exists (s : Storage) (h : Digest) : Bool :=
  (lookupA s.chunk_metadata h).isSome

/-- `ChunkStorage.get_container_size(container_path)`:
`os.path.getsize(full_path) if os.path.exists(full_path) else 0`. -/
def get_container_size (s : Storage) (container_path : String) : Nat :=
  match lookupA s.containers container_path with
  | some bytes => bytes.length
  | none => 0

/-- `ChunkStorage._load_file_chunks` and `_load_chunk_metadata` share this
shape: `none` = file absent (keep the initial `{}`), `some none` = present
but unparseable (`except` branch resets to `{}`), `some (some v)` = parsed. -/
def load_json {α : Type} (disk : Option (Option (List α))) : List α :=
  match disk with
  | none => []
  | some none => []
  | some (some v) => v

/-- `ChunkStorage.__init__`: load both metadata files from disk. -/
def chunk_storage_init (containers : List (String × List Nat))
    (diskFC : Option (Option (List (String × Manifest))))
    (diskCM : Option (Option (List (Digest × ChunkMeta)))) : Storage :=
  { file_chunks := load_json diskFC
    chunk_metadata := load_json diskCM
    containers := containers
    disk_chunk_metadata := diskCM.bind id }

/-! ## main.py — FilesystemDedup -/

/-- Errors surfaced through `FuseOSError`, plus the uncaught Python
exception raised by `open()` on a missing container file. -/
inductive FsError where
  | enoent
  | eio
  | fileNotFound
  deriving Repr, DecidableEq

/-- The façade state: its own `file_chunks` cache (a `defaultdict` seeded from
the storage at mount time), the storage, and the backing files under the
root (keyed by fuse path; `_full_path` is injective on paths). -/
structure FSState where
  file_chunks : List (String × Manifest)
  storage : Storage
  backing : List String
  chunker : ChunkerState
  deriving Repr, DecidableEq

/-- `FilesystemDedup._hash_chunk`: SHA-256 hex digest of the chunk, modelled
as the chunk bytes themselves (SHA-256 is injective for this development). -/
def hash_chunk (chunk : List Nat) : Digest := chunk

/-- The insertion-point scan of `write` (`main.py` lines 119-123):
`while chunk_index < len(existing) and chunk_start + existing[chunk_index][1] <= offset`.
`fuel` is the exact remaining bound `length - chunk_index`, so `fuel = 0`
coincides with the `chunk_index < len` exit. Returns `(chunk_start, chunk_index)`. -/
def find_insert (existing : Manifest) (offset : Nat) :
    Nat → Nat → Nat → Nat × Nat
  | cs, ci, 0 => (cs, ci)
  | cs, ci, fuel + 1 =>
    let sz := (existing.getD ci ([], 0)).2
    if cs + sz ≤ offset then find_insert existing offset (cs + sz) (ci + 1) fuel
    else (cs, ci)

/-- The chunking loop of `write` (`main.py` lines 130-135): repeatedly ask the
chunker for the next chunk size and slice the data. One fuel unit per chunk;
every chunk consumes at least one byte, so `fuel = data.length` never runs
out on the loop's own terms. Returns the chunks in order and the final
thread-local chunker state. -/
def chunk_pieces_loop (data : List Nat) :
    ChunkerState → Nat → Nat → List (List Nat) × ChunkerState
  | cs, _, 0 => ([], cs)
  | cs, start, fuel + 1 =>
    if start < data.length then
      let r := determine_chunk_size cs data start
      let rest := chunk_pieces_loop data r.2 (start + r.1) fuel
      (((data.drop start).take r.1) :: rest.1, rest.2)
    else ([], cs)

def chunk_pieces (cs : ChunkerState) (data : List Nat) : List (List Nat) × ChunkerState :=
  chunk_pieces_loop data cs 0 data.length

/-- Accumulator of the staging loop of `write` (`main.py` lines 142-148):
the container buffer, the staged `chunk_metadata` dict (digest →
`(path, offset, length)`), the `new_chunks` manifest run, and
`current_offset`. -/
structure WriteAcc where
  buffer : List Nat
  chunk_metadata : List (Digest × (String × Nat × Nat))
  new_chunks : Manifest
  current_offset : Nat

/-- `FilesystemDedup.write(path, data, offset)` (`main.py` lines 113-161).
Returns the new state and the return value `len(data)`. -/
def writeOp (st : FSState) (path : String) (data : List Nat) (offset : Nat) :
    FSState × Nat :=
  let existing := (lookupA st.file_chunks path).getD []
  let ci := (find_insert existing offset 0 0 existing.length).2
  let pieces := chunk_pieces st.chunker data
  let off0 := get_container_size st.storage (container_name_of path)
  let acc := pieces.1.foldl
    (fun (a : WriteAcc) chunk =>
      let h := hash_chunk chunk
      if ¬ chunk_exists st.storage h ∧ (lookupA a.chunk_metadata h).isNone then
        { buffer := a.buffer ++ chunk
          chunk_metadata := setA a.chunk_metadata h (path, a.current_offset, chunk.length)
          new_chunks := a.new_chunks ++ [(h, chunk.length)]
          current_offset := a.current_offset + chunk.length }
      else { a with new_chunks := a.new_chunks ++ [(h, chunk.length)] })
    { buffer := [], chunk_metadata := [], new_chunks := [], current_offset := off0 }
  let storage1 :=
    if acc.chunk_metadata ≠ [] then
      write_chunk_metadata (write_container st.storage path acc.buffer off0)
        acc.chunk_metadata
    else st.storage
  let newManifest := existing.take ci ++ acc.new_chunks ++ existing.drop (ci + 1)
  let storage2 := store_file_chunks storage1 path newManifest
  ({ st with file_chunks := setA st.file_chunks path newManifest
             storage := storage2
             chunker := pieces.2 }, data.length)

/-- The container-grouping inner loop of `read` (`main.py` lines 192-204).
Starting at manifest position `i`, advance while the Chunk Index entry of the
current chunk names `group_container`; on a different container record
`last_offset = chunk_offset + chunk_len` and stop without consuming the
chunk; when the manifest ends, `last_offset` comes from the final chunk.
A missing index entry is `EIO`. `fuel ≥ length - i + 1` never runs out.
Returns `(i, last_offset)` (with `last_offset = 0` when the loop body never
runs, its initialisation in the source). -/
def group_scan (idx : List (Digest × ChunkMeta)) (chunks : Manifest)
    (group_container : String) : Nat → Nat → Except FsError (Nat × Nat)
  | i, 0 => .ok (i, 0)
  | i, fuel + 1 =>
    if i < chunks.length then
      match lookupA idx (chunks.getD i ([], 0)).1 with
      | none => .error .eio
      | some (c, cOff, cLen) =>
        if c ≠ group_container then .ok (i, cOff + cLen)
        else if i + 1 ≥ chunks.length then .ok (i + 1, cOff + cLen)
        else group_scan idx chunks group_container (i + 1) fuel
    else .ok (i, 0)

/-- Python list slice `l[0:stop]` for an `Int` stop (negative stops count
from the end). -/
def pySliceTo {α : Type} (l : List α) (stop : Int) : List α :=
  if 0 ≤ stop then l.take stop.toNat else l.take (l.length - stop.natAbs)

/-- The outer loop of `read` (`main.py` lines 174-214):
`while i < len(chunks) and len(data) < size`. Chunks wholly before `offset`
are skipped; otherwise the chunk's index entry opens a container group, the
group is scanned, one bulk read `[first_offset, last_offset)` is issued
(Python's `f.read(n)` reads to EOF for negative `n`), and
`bulk[0:min(len(bulk), remaining)]` is appended while `remaining` drops by
the full bulk length. `current_offset` is not advanced on the group path,
exactly as in the source. `fuel ≥ length + 1` suffices because every
iteration advances `i`. -/
def read_loop (stor : Storage) (chunks : Manifest) (size offset : Nat) :
    Nat → Nat → List Nat → Int → Nat → Except FsError (List Nat)
  | _, _, acc, _, 0 => .ok acc
  | i, cur, acc, remaining, fuel + 1 =>
    if i < chunks.length ∧ acc.length < size then
      let c := chunks.getD i ([], 0)
      if cur + c.2 ≤ offset then
        read_loop stor chunks size offset (i + 1) (cur + c.2) acc remaining fuel
      else
        match lookupA stor.chunk_metadata c.1 with
        | none => .error .eio
        | some (container_file, base_offset, _) =>
          match group_scan stor.chunk_metadata chunks container_file i
              (chunks.length + 1) with
          | .error e => .error e
          | .ok (i', last_offset) =>
            match lookupA stor.containers container_file with
            | none => .error .fileNotFound
            | some cbytes =>
              let bulk :=
                if last_offset < base_offset then cbytes.drop base_offset
                else (cbytes.drop base_offset).take (last_offset - base_offset)
              let appended := pySliceTo bulk (min (Int.ofNat bulk.length) remaining)
              read_loop stor chunks size offset i' cur (acc ++ appended)
                (remaining - Int.ofNat bulk.length) fuel
    else .ok acc

/-- `FilesystemDedup.read(path, size, offset)` (`main.py` lines 163-215). -/
def readOp (st : FSState) (path : String) (size offset : Nat) :
    Except FsError (List Nat) :=
  match lookupA st.file_chunks path with
  | none => .error .enoent
  | some chunks =>
    read_loop st.storage chunks size offset 0 0 [] (Int.ofNat size)
      (chunks.length + 1)

/-- `FilesystemDedup.unlink(path)` (`main.py` lines 78-86): drop the manifest
from the façade cache and persist the empty list when one exists, remove the
backing file only when it exists, and return 0 unconditionally. -/
def unlinkOp (st : FSState) (path : String) : FSState × Nat :=
  let st1 :=
    if (lookupA st.file_chunks path).isSome then
      { st with file_chunks := delA st.file_chunks path
                storage := store_file_chunks st.storage path [] }
    else st
  let st2 :=
    if path ∈ st1.backing then { st1 with backing := st1.backing.erase path }
    else st1
  (st2, 0)

/-- `FilesystemDedup.create(path, mode)` (`main.py` lines 94-100): create the
backing file and install an empty manifest. -/
def createOp (st : FSState) (path : String) : FSState :=
  { st with backing := if path ∈ st.backing then st.backing else st.backing ++ [path]
            file_chunks := setA st.file_chunks path []
            storage := store_file_chunks st.storage path [] }

/-- `FilesystemDedup.__init__` plus `__main__` (`main.py` lines 14-22 and
222-232): load the storage, seed the façade manifest cache from it, and
mount. Beyond `argparse`'s arity check there is no validation: in particular
an unparseable `chunk_metadata.json` never aborts startup, whatever the
manifests reference, so the result type's error case is never produced. -/
def mount_start (containers : List (String × List Nat))
    (diskFC : Option (Option (List (String × Manifest))))
    (diskCM : Option (Option (List (Digest × ChunkMeta)))) :
    Except Unit FSState :=
  let storage := chunk_storage_init containers diskFC diskCM
  .ok { file_chunks := storage.file_chunks
        storage := storage
        backing := []
        chunker := initChunkerState }

/-! ## garbageCollector.py -/

/-- `filename.endswith(".container")`, expressed over character lists. -/
def ends_with (s suf : String) : Bool :=
  let a := s.toList
  let b := suf.toList
  decide (b = a.drop (a.length - b.length))

/-- `set()` accumulation: CPython iterates a set of strings in hash order;
the embedding fixes the deterministic first-appearance order. -/
def dedupFirst {α : Type} [DecidableEq α] (l : List α) : List α :=
  l.foldl (fun acc a => if a ∈ acc then acc else acc ++ [a]) []

/-- `GarbageCollector.collect_garbage` (`garbageCollector.py` lines 32-98).

Mark: gather every digest referenced by any manifest; map each (via the
in-memory index) to its container. Sweep: per container with live entries,
sort the entries by old offset (Python's stable `list.sort`, modelled by the
stable `insertionSort`), copy each range into a fresh buffer, record new
offsets, and atomically replace the container. The temp metadata file is
created empty before the loop (empty = unparseable, `none`) and then
*truncated and rewritten* (`open(..., 'w')`) inside the loop, so it holds
only the most recently processed container's entries; after the loop it is
moved over `chunk_metadata.json`. The in-memory index is never touched.
Finally every `.container` file without live entries is deleted. -/
def collect_garbage (s : Storage) : Storage :=
  let file_chunks := s.file_chunks
  let used : List Digest :=
    dedupFirst (file_chunks.flatMap (fun p => p.2.map (·.1)))
  let container_map : List (String × List (Digest × Nat × Nat)) :=
    used.foldl (fun m d =>
      match get_chunk_metadata s d with
      | none => m
      | some (c, off, sz) => appendAtA m c (d, off, sz)) []
  let swept := container_map.foldl
    (fun (a : List (String × List Nat) × Option (List (Digest × ChunkMeta))) pr =>
      match lookupA a.1 pr.1 with
      | none => a
      | some cbytes =>
        let sorted := pr.2.insertionSort (fun x y => x.2.1 ≤ y.2.1)
        let rebuilt := sorted.foldl
          (fun (b : List Nat × List (Digest × ChunkMeta)) t =>
            let chunk_data := (cbytes.drop t.2.1).take t.2.2
            (b.1 ++ chunk_data, setA b.2 t.1 (pr.1, b.1.length, t.2.2)))
          ([], [])
        (setA a.1 pr.1 rebuilt.1, some rebuilt.2))
    (s.containers, (none : Option (List (Digest × ChunkMeta))))
  let live := container_map.map (·.1)
  let containers2 := swept.1.filter
    (fun p => p.1 ∈ live ∨ ¬ ends_with p.1 ".container")
  { s with containers := containers2, disk_chunk_metadata := swept.2 }

/-! ## Multi-threaded chunker runs

`Chunker.local_storage` is a `threading.local()`: each thread owns one
rolling state, created on that thread's first use with zero window, zero
hash, zero position. A run is a trace of `determine_chunk_size` calls tagged
with the calling thread. -/

structure ChunkCall where
  tid : Nat
  data : List Nat
  start : Nat
  deriving Repr, DecidableEq

/-- Execute one call: the calling thread's state is read, used and replaced;
other threads' states are untouched. Returns the new thread-state map and
the call's return value. -/
def stepCall (g : Nat → ChunkerState) (c : ChunkCall) : (Nat → ChunkerState) × Nat :=
  let r := determine_chunk_size (g c.tid) c.data c.start
  (fun u => if u = c.tid then r.2 else g u, r.1)

/-- Run a trace of calls, recording each call with its return value. -/
def runTrace (g : Nat → ChunkerState) : List ChunkCall → List (ChunkCall × Nat)
  | [] => []
  | c :: rest =>
    let s := stepCall g c
    (c, s.2) :: runTrace s.1 rest

/-- Every thread's local storage before its first use. -/
def initThreads : Nat → ChunkerState := fun _ => initChunkerState

/-! ## Concrete scenario states used by the closed theorems below -/

/-- A freshly mounted filesystem over an empty root. -/
def emptyFS : FSState :=
  { file_chunks := []
    storage := { file_chunks := [], chunk_metadata := [], containers := []
                 disk_chunk_metadata := none }
    backing := [], chunker := initChunkerState }

/-- Create `/f` and write 96 zero bytes at offset 0. The chunker cuts the
zeros into two identical 48-byte chunks, so the manifest references the same
digest twice while the container stores the chunk once. -/
def c1state : FSState := (writeOp (createOp emptyFS "/f") "/f" (List.replicate 96 0) 0).1

def dA : Digest := [1, 2]
def dB : Digest := [3, 4]

/-- Two files, one live chunk each, in two separate containers; the on-disk
index starts consistent with memory. -/
def c2storage : Storage :=
  { file_chunks := [("/a", [(dA, 2)]), ("/b", [(dB, 2)])]
    chunk_metadata := [(dA, ("a.container", 0, 2)), (dB, ("b.container", 0, 2))]
    containers := [("a.container", [1, 2]), ("b.container", [3, 4])]
    disk_chunk_metadata := some [(dA, ("a.container", 0, 2)), (dB, ("b.container", 0, 2))] }

/-- What `chunk_metadata.json` holds after GC on `c2storage`: only the second
container's entries. -/
def c2after : List (Digest × ChunkMeta) := [(dB, ("b.container", 0, 2))]

def d1 : Digest := [9]
def d2 : Digest := [7]

/-- A manifest whose first entry (`d1`) has no Chunk Index entry while the
second (`d2`) does. -/
def c7state : FSState :=
  { file_chunks := [("/g", [(d1, 5), (d2, 5)])]
    storage := { file_chunks := [("/g", [(d1, 5), (d2, 5)])]
                 chunk_metadata := [(d2, ("c.container", 5, 5))]
                 containers := [("c.container", [0, 1, 2, 3, 4, 5, 6, 7, 8, 9])]
                 disk_chunk_metadata := some [] }
    backing := [], chunker := initChunkerState }

/-- A one-entry manifest whose digest is absent from the index: the
first visited entry is missing, used to instantiate the amended C7 theorem. -/
def c7wstate : FSState :=
  { file_chunks := [("/w", [(d1, 3)])]
    storage := { file_chunks := [("/w", [(d1, 3)])], chunk_metadata := []
                 containers := [], disk_chunk_metadata := some [] }
    backing := [], chunker := initChunkerState }

def c5d : Digest := [1]

/-- An index already holding an entry for `c5d`. -/
def c5storage : Storage :=
  { file_chunks := [], chunk_metadata := [(c5d, ("c1", 0, 5))]
    containers := [], disk_chunk_metadata := some [] }

/-- A rolling state whose hash has bit 48 set: shifting it left by 8 leaves
the 56-bit domain but stays inside the source's 64-bit mask. -/
def c6s0 : ChunkerState :=
  { window := List.replicate WINDOW_SIZE 0, hash := 2 ^ 48, window_pos := 0 }

/-- Running sum of logical lengths of the first `n` manifest entries. -/
def cumLen (chunks : Manifest) (n : Nat) : Nat :=
  ((chunks.take n).map (·.2)).sum

/-- A state used to witness the unlink theorem. -/
def c10state : FSState :=
  { file_chunks := [("/u", [(d1, 3)])]
    storage := { file_chunks := [("/u", [(d1, 3)])], chunk_metadata := []
                 containers := [], disk_chunk_metadata := some [] }
    backing := ["/u"], chunker := initChunkerState }

/-! ## Association-list lemmas -/

theorem lookupA_map_set {α β : Type} [DecidableEq α] (l : List (α × β)) (k : α) (v : β)
    (h : (lookupA l k).isSome) :
    lookupA (l.map (fun p => if p.1 = k then (k, v) else p)) k = some v := by
  induction l with
  | nil => simp [lookupA] at h
  | cons p t ih =>
    simp only [List.map_cons]
    by_cases hp : p.1 = k
    · rw [if_pos hp]
      simp [lookupA]
    · rw [if_neg hp]
      simp only [lookupA, hp, if_false] at h ⊢
      exact ih h

theorem lookupA_map_set_ne {α β : Type} [DecidableEq α] (l : List (α × β)) (k k' : α)
    (v : β) (hne : k' ≠ k) :
    lookupA (l.map (fun p => if p.1 = k then (k, v) else p)) k' = lookupA l k' := by
  induction l with
  | nil => rfl
  | cons p t ih =>
    simp only [List.map_cons]
    by_cases hp : p.1 = k
    · rw [if_pos hp]
      simp only [lookupA, Ne.symm hne, if_false, hp ▸ (Ne.symm hne : k ≠ k')]
      exact ih
    · rw [if_neg hp]
      simp only [lookupA]
      by_cases hp' : p.1 = k'
      · simp [hp']
      · simp only [hp', if_false]
        exact ih

theorem lookupA_append_single {α β : Type} [DecidableEq α] (l : List (α × β)) (k : α) (v : β)
    (h : lookupA l k = none) :
    lookupA (l ++ [(k, v)]) k = some v := by
  induction l with
  | nil => simp [lookupA]
  | cons p t ih =>
    by_cases hp : p.1 = k
    · simp [lookupA, hp] at h
    · simp only [lookupA, hp, if_false] at h
      simpa [lookupA, hp] using ih h

theorem lookupA_append_single_ne {α β : Type} [DecidableEq α] (l : List (α × β)) (k k' : α)
    (v : β) (hne : k' ≠ k) :
    lookupA (l ++ [(k, v)]) k' = lookupA l k' := by
  induction l with
  | nil => simp [lookupA, Ne.symm hne]
  | cons p t ih =>
    simp only [List.cons_append, lookupA]
    by_cases hp : p.1 = k'
    · simp [hp]
    · simp only [hp, if_false]
      exact ih

theorem lookupA_setA_self {α β : Type} [DecidableEq α] (l : List (α × β)) (k : α) (v : β) :
    lookupA (setA l k v) k = some v := by
  by_cases h : (lookupA l k).isSome
  · simp only [setA, h, if_true]
    exact lookupA_map_set l k v h
  · simp only [setA, h, if_false]
    exact lookupA_append_single l k v (Option.not_isSome_iff_eq_none.mp h)

theorem lookupA_setA_ne {α β : Type} [DecidableEq α] (l : List (α × β)) (k k' : α) (v : β)
    (hne : k' ≠ k) :
    lookupA (setA l k v) k' = lookupA l k' := by
  by_cases h : (lookupA l k).isSome
  · simp only [setA, h, if_true]
    exact lookupA_map_set_ne l k k' v hne
  · simp only [setA, h, if_false]
    exact lookupA_append_single_ne l k k' v hne

theorem lookupA_delA_self {α β : Type} [DecidableEq α] (l : List (α × β)) (k : α) :
    lookupA (delA l k) k = none := by
  induction l with
  | nil => rfl
  | cons p t ih =>
    by_cases hp : p.1 = k
    · simpa [delA, List.filter, hp] using ih
    · simpa [delA, List.filter, hp, lookupA] using ih

theorem lookupA_updateA_not_mem {α β : Type} [DecidableEq α] (m : List (α × β)) (k : α) :
    ∀ l : List (α × β), k ∉ m.map (·.1) → lookupA (updateA l m) k = lookupA l k := by
  induction m with
  | nil => intro l _; rfl
  | cons p t ih =>
    intro l hk
    simp only [List.map_cons, List.mem_cons] at hk
    push_neg at hk
    have step : updateA l (p :: t) = updateA (setA l p.1 p.2) t := rfl
    rw [step, ih _ hk.2, lookupA_setA_ne _ _ _ _ hk.1]

theorem lookupA_updateA_nodup {α β : Type} [DecidableEq α] (m : List (α × β)) (k : α) (v : β) :
    ∀ l : List (α × β), (m.map (·.1)).Nodup → lookupA m k = some v →
      lookupA (updateA l m) k = some v := by
  induction m with
  | nil => intro l _ h; simp [lookupA] at h
  | cons p t ih =>
    intro l hnd hl
    have step : updateA l (p :: t) = updateA (setA l p.1 p.2) t := rfl
    simp only [List.map_cons, List.nodup_cons] at hnd
    by_cases hp : p.1 = k
    · simp only [lookupA, hp, if_true] at hl
      rw [step, lookupA_updateA_not_mem t k _ (hp ▸ hnd.1), hp, lookupA_setA_self]
      exact hl
    · simp only [lookupA, hp, if_false] at hl
      rw [step]
      exact ih _ hnd.2 hl

theorem lookupA_map_keyed {α β γ : Type} [DecidableEq α] (m : List (α × β)) (g : β → γ)
    (k : α) :
    lookupA (m.map (fun p => (p.1, g p.2))) k = (lookupA m k).map g := by
  induction m with
  | nil => rfl
  | cons p t ih =>
    by_cases hp : p.1 = k
    · simp [lookupA, hp]
    · simpa [lookupA, hp] using ih

theorem keys_map_keyed {α β γ : Type} (m : List (α × β)) (g : β → γ) :
    (m.map (fun p => (p.1, g p.2))).map (·.1) = m.map (·.1) := by
  simp [List.map_map]

/-! ## Claim theorems -/

set_option maxRecDepth 8000

/-- C1 (code_bug evidence). Writing 96 zero bytes to a freshly created file
reports 96 bytes written, yet reading the file back from offset 0 returns
only the first 48 bytes — one copy of the 48-byte zero chunk that appears
twice in the manifest — instead of the 96-byte buffer, so the
read-after-write round trip fails. -/
theorem c1_failing_input :
    (writeOp (createOp emptyFS "/f") "/f" (List.replicate 96 0) 0).2 = 96
    ∧ readOp c1state "/f" 96 0 = .ok (List.replicate 48 0)
    ∧ List.replicate 48 (0 : Nat) ≠ List.replicate 96 0 :=
  ⟨rfl, rfl, by decide⟩

/-- C2 (code_bug evidence). With two files, each holding one live chunk in
its own container, a GC cycle with manifests unchanged leaves the rewritten
on-disk `chunk_metadata.json` holding only the second container's entry: the
live digest `dA` loses its on-disk Chunk Index entry. The in-memory index is
left untouched (no rewritten offsets ever reach it). -/
theorem c2_failing_input :
    dA ∈ c2storage.file_chunks.flatMap (fun p => p.2.map (·.1))
    ∧ (collect_garbage c2storage).disk_chunk_metadata = some c2after
    ∧ lookupA c2after dA = none
    ∧ (collect_garbage c2storage).chunk_metadata = c2storage.chunk_metadata :=
  ⟨by decide, rfl, by decide, rfl⟩

/-- C3 (code_bug evidence). On a 49-byte all-zero buffer with `start = 0`,
`determine_chunk_size` returns 48, not 49: fewer than the claimed
`MIN_CHUNK_SIZE = 1024` bytes remain, so per the claim all 49 remaining
bytes should form the chunk. The source sets `MIN_CHUNK_SIZE = 20` (its own
trailing comment says `1 KB`), so a 48-byte chunk is cut instead. -/
theorem c3_failing_input :
    (determine_chunk_size initChunkerState (List.replicate 49 0) 0).1 = 48
    ∧ 48 ≠ 49 ∧ 49 - 0 < 1024
    ∧ MIN_CHUNK_SIZE = 20 :=
  ⟨by decide, by decide, by decide, rfl⟩

/-- C4 (counterexample). Two consecutive `determine_chunk_size(B, 0)` calls
by the same thread on the buffer of one hundred `1`-bytes return different
values (49, then 48): the rolling state is carried across boundary searches,
not reset. -/
theorem c4_counterexample :
    ((runTrace initThreads [⟨0, List.replicate 100 1, 0⟩, ⟨0, List.replicate 100 1, 0⟩]).map
        Prod.snd).getD 0 0
    ≠ ((runTrace initThreads [⟨0, List.replicate 100 1, 0⟩, ⟨0, List.replicate 100 1, 0⟩]).map
        Prod.snd).getD 1 0 := by decide

theorem runTrace_project (trace : List ChunkCall) (t : Nat) :
    ∀ g₁ g₂ : Nat → ChunkerState, g₁ t = g₂ t →
      (runTrace g₁ trace).filter (fun r => r.1.tid == t)
        = runTrace g₂ (trace.filter (fun c => c.tid == t)) := by
  induction trace with
  | nil => intro g₁ g₂ _; rfl
  | cons c rest ih =>
    intro g₁ g₂ hg
    by_cases hc : c.tid = t
    · have hs : determine_chunk_size (g₁ t) c.data c.start
          = determine_chunk_size (g₂ t) c.data c.start := by
        rw [hg]
      simp only [runTrace, stepCall, List.filter_cons, hc, beq_self_eq_true, if_true,
        hs]
      refine congrArg _ ?_
      apply ih
      simp
    · have hb : (c.tid == t) = false := beq_eq_false_iff_ne.mpr hc
      simp only [runTrace, stepCall, List.filter_cons, hb, Bool.false_eq_true, if_false]
      apply ih
      simp [Ne.symm hc, hg]

/-- C4 (amended). The chunker's rolling state is thread-local, initialised
once per thread and carried across boundary searches within that thread.
Threads do not interfere: in any interleaved trace of
`determine_chunk_size` calls, the calls of thread `t` together with their
return values are exactly those of running `t`'s calls alone from the
initial per-thread state — so identical call sequences issued by fresh
threads produce identical boundary sequences. -/
theorem c4_thread_noninterference (trace : List ChunkCall) (t : Nat) :
    (runTrace initThreads trace).filter (fun r => r.1.tid == t)
      = runTrace initThreads (trace.filter (fun c => c.tid == t)) :=
  runTrace_project trace t initThreads initThreads rfl

/-- C5 (counterexample). Re-inserting an already-present digest through
`write_chunk_metadata` is not a no-op: the stored entry for `c5d` changes
from `("c1", 0, 5)` to `("p2.container", 7, 9)`. -/
theorem c5_counterexample :
    lookupA c5storage.chunk_metadata c5d = some ("c1", 0, 5)
    ∧ lookupA (write_chunk_metadata c5storage [(c5d, ("/p2", 7, 9))]).chunk_metadata c5d
        = some ("p2.container", 7, 9)
    ∧ (("p2.container", 7, 9) : ChunkMeta) ≠ ("c1", 0, 5) := by
  refine ⟨rfl, rfl, by decide⟩

/-- C5 (amended). `write_chunk_metadata` is last-writer-wins: for every
digest in the staged map, the index afterwards holds the staged value
(translated to its container name), whatever was stored before. The call is
a no-op on an existing digest only when the staged value coincides with the
stored one. -/
theorem c5_insert_overwrites (s : Storage)
    (m : List (Digest × (String × Nat × Nat))) (d : Digest) (v : String × Nat × Nat)
    (hnd : (m.map (·.1)).Nodup) (hl : lookupA m d = some v) :
    lookupA (write_chunk_metadata s m).chunk_metadata d
      = some (container_name_of v.1, v.2.1, v.2.2) := by
  have h := lookupA_updateA_nodup
    (m.map (fun p => (p.1, chunk_meta_of_staged p.2))) d
    (chunk_meta_of_staged v) s.chunk_metadata
  apply h
  · rw [keys_map_keyed]
    exact hnd
  · rw [lookupA_map_keyed m chunk_meta_of_staged d, hl]
    rfl

/-- C5 (witness). The amended theorem applied to the concrete re-insert of
`c5d`. -/
theorem c5_witness :
    lookupA (write_chunk_metadata c5storage [(c5d, ("/p2", 7, 9))]).chunk_metadata c5d
      = some (container_name_of "/p2", 7, 9) :=
  c5_insert_overwrites c5storage [(c5d, ("/p2", 7, 9))] c5d ("/p2", 7, 9)
    (by simp) rfl

theorem tableRound_lt (h : Nat) (hh : h < 2 ^ 54) : tableRound h < 2 ^ 54 := by
  unfold tableRound
  split
  · exact Nat.xor_lt_two_pow (Nat.lt_of_le_of_lt (Nat.div_le_self h 2) hh)
      (by norm_num [POLYNOMIAL])
  · exact Nat.lt_of_le_of_lt (Nat.div_le_self h 2) hh

theorem tableRound_iterate_lt (n x : Nat) (hx : x < 2 ^ 54) :
    tableRound^[n] x < 2 ^ 54 := by
  induction n with
  | zero => simpa using hx
  | succ n ih =>
    rw [Function.iterate_succ_apply']
    exact tableRound_lt _ ih

theorem tableGet_eq (b : Nat) (hb : b < 256) : tableGet b = tableEntry b := by
  unfold tableGet table
  rw [List.getD_eq_getElem?_getD, List.getElem?_map, List.getElem?_range hb]
  rfl

theorem tableGet_lt (b : Nat) : tableGet b < 2 ^ 54 := by
  by_cases hb : b < 256
  · rw [tableGet_eq b hb]
    exact tableRound_iterate_lt 8 b (lt_trans hb (by norm_num))
  · have hlen : table.length ≤ b := by
      simp only [table, List.length_map, List.length_range]
      omega
    unfold tableGet
    rw [List.getD_eq_default _ _ hlen]
    norm_num

/-- C6 (amended). The 256-entry table is precomputed by 8 shift-xor rounds
with `POLYNOMIAL`, and on each byte the hash updates as
`hash = ((hash << 8) & MASK64) XOR table[incoming] XOR table[dropped]` with
the 64-bit mask `0xFFFFFFFFFFFFFFFF`: the arithmetic stays in a 64-bit
domain (not 56-bit). -/
theorem c6_update_hash_64bit :
    (∀ b : Nat, b < 256 → tableGet b = tableRound^[8] b)
    ∧ (∀ (s : ChunkerState) (b : Nat),
        (update_hash s b).hash
          = ((s.hash <<< 8) &&& (2 ^ 64 - 1)) ^^^ tableGet b
              ^^^ tableGet (s.window.getD s.window_pos 0))
    ∧ (∀ (s : ChunkerState) (b : Nat), (update_hash s b).hash < 2 ^ 64) := by
  refine ⟨?_, ?_, ?_⟩
  · intro b hb
    rw [tableGet_eq b hb]
    rfl
  · intro s b
    rfl
  · intro s b
    show ((s.hash <<< 8) &&& 0xFFFFFFFFFFFFFFFF) ^^^ tableGet b
        ^^^ tableGet (s.window.getD s.window_pos 0) < 2 ^ 64
    have h1 : (s.hash <<< 8) &&& 0xFFFFFFFFFFFFFFFF < 2 ^ 64 :=
      Nat.lt_of_le_of_lt Nat.and_le_right (by norm_num)
    have h54 : (2 : Nat) ^ 54 < 2 ^ 64 := by norm_num
    exact Nat.xor_lt_two_pow
      (Nat.xor_lt_two_pow h1 (lt_trans (tableGet_lt b) h54))
      (lt_trans (tableGet_lt _) h54)

/-- C6 (witness). The amended hash-update theorem at byte 1 from the initial
thread state, and the table characterisation at entry 1. -/
theorem c6_witness :
    tableGet 1 = tableRound^[8] 1
    ∧ (update_hash initChunkerState 1).hash
        = ((initChunkerState.hash <<< 8) &&& (2 ^ 64 - 1)) ^^^ tableGet 1
            ^^^ tableGet (initChunkerState.window.getD initChunkerState.window_pos 0)
    ∧ (update_hash initChunkerState 1).hash < 2 ^ 64 :=
  ⟨c6_update_hash_64bit.1 1 (by decide),
   c6_update_hash_64bit.2.1 initChunkerState 1,
   c6_update_hash_64bit.2.2 initChunkerState 1⟩

/-- C6 (counterexample). With the hash `2^48`, the source's update leaves
the 56-bit domain: the stored hash is `2^56`, which differs from the value
predicted by the claimed 56-bit-masked update rule and exceeds
`2^56 - 1`. -/
theorem c6_mask56_counterexample :
    (update_hash c6s0 0).hash
      ≠ ((c6s0.hash <<< 8) &&& (2 ^ 56 - 1)) ^^^ tableGet 0
          ^^^ tableGet (c6s0.window.getD c6s0.window_pos 0)
    ∧ 2 ^ 56 - 1 < (update_hash c6s0 0).hash :=
  ⟨by decide, by decide⟩

/-- C8 (counterexample). With an unparseable `chunk_metadata.json` and a
manifest that references a chunk, the mount still starts (`.ok`) and the
Chunk Index is silently recovered as empty — it does not refuse to start. -/
theorem c8_counterexample :
    mount_start [] (some (some [("/f", [([5], 3)])])) (some none)
      = .ok { file_chunks := [("/f", [([5], 3)])]
              storage := { file_chunks := [("/f", [([5], 3)])], chunk_metadata := []
                           containers := [], disk_chunk_metadata := none }
              backing := [], chunker := initChunkerState }
    ∧ [(([5] : Digest), 3)] ≠ ([] : Manifest) :=
  ⟨rfl, by decide⟩

/-- C8 (amended). Startup never refuses to mount, and an unparseable Chunk
Index file is always recovered as the empty index, regardless of what the
manifests reference. -/
theorem c8_corrupt_index_recovered (containers : List (String × List Nat))
    (diskFC : Option (Option (List (String × Manifest))))
    (diskCM : Option (Option (List (Digest × ChunkMeta)))) :
    (mount_start containers diskFC diskCM).isOk = true
    ∧ mount_start containers diskFC (some none)
        = .ok { file_chunks := load_json diskFC
                storage := { file_chunks := load_json diskFC, chunk_metadata := []
                             containers := containers, disk_chunk_metadata := none }
                backing := [], chunker := initChunkerState } :=
  ⟨rfl, rfl⟩

theorem group_scan_no_enoent (idx : List (Digest × ChunkMeta)) (chunks : Manifest)
    (g : String) : ∀ (fuel i : Nat),
    group_scan idx chunks g i fuel ≠ .error .enoent := by
  intro fuel
  induction fuel with
  | zero => intro i; simp [group_scan]
  | succ fuel ih =>
    intro i
    simp only [group_scan]
    split
    · cases hl : lookupA idx (chunks.getD i ([], 0)).1 with
      | none => simp
      | some m =>
        obtain ⟨c, cOff, cLen⟩ := m
        by_cases hc : c ≠ g
        · simp [hc]
        · by_cases hi : i + 1 ≥ chunks.length
          · simp [hc, hi]
          · simpa [hc, hi] using ih (i + 1)
    · simp

theorem read_loop_no_enoent (stor : Storage) (chunks : Manifest) (size offset : Nat) :
    ∀ (fuel i cur : Nat) (acc : List Nat) (remaining : Int),
    read_loop stor chunks size offset i cur acc remaining fuel ≠ .error .enoent := by
  intro fuel
  induction fuel with
  | zero => intro i cur acc remaining; simp [read_loop]
  | succ fuel ih =>
    intro i cur acc remaining
    simp only [read_loop]
    split
    · split
      · exact ih _ _ _ _
      · cases hl : lookupA stor.chunk_metadata (chunks.getD i ([], 0)).1 with
        | none => simp
        | some m =>
          obtain ⟨cf, bo, rest⟩ := m
          cases hgs : group_scan stor.chunk_metadata chunks cf i (chunks.length + 1) with
          | error e =>
            simp only [hgs]
            intro h
            injection h with he
            exact group_scan_no_enoent stor.chunk_metadata chunks cf _ i (he ▸ hgs)
          | ok r =>
            obtain ⟨i', lastOff⟩ := r
            simp only [hgs]
            cases hcb : lookupA stor.containers cf with
            | none => simp [hcb]
            | some cbytes =>
              simp only [hcb]
              exact ih _ _ _ _
    · simp

theorem cumLen_succ (chunks : Manifest) (n : Nat) (hn : n < chunks.length) :
    cumLen chunks (n + 1) = cumLen chunks n + (chunks.getD n ([], 0)).2 := by
  unfold cumLen
  rw [List.take_succ, List.getElem?_eq_getElem hn, List.map_append, List.sum_append]
  simp only [Option.toList_some, List.map_cons, List.map_nil, List.sum_cons,
    List.sum_nil, add_zero]
  congr 1
  rw [List.getD_eq_getElem?_getD, List.getElem?_eq_getElem hn]
  rfl

theorem read_loop_first_visited_missing (stor : Storage) (chunks : Manifest)
    (size offset : Nat) (hsize : 0 < size) (k : Nat) (hk : k < chunks.length)
    (hskip : ∀ j, j < k → cumLen chunks (j + 1) ≤ offset)
    (hvisit : offset < cumLen chunks (k + 1))
    (hmiss : lookupA stor.chunk_metadata (chunks.getD k ([], 0)).1 = none) :
    ∀ (d i : Nat), i ≤ k → k - i = d →
      read_loop stor chunks size offset i (cumLen chunks i) [] (Int.ofNat size)
        (chunks.length + 1 - i) = .error .eio := by
  intro d
  induction d with
  | zero =>
    intro i hik hd
    have hik' : i = k := by omega
    subst hik'
    have hfuel : chunks.length + 1 - i = (chunks.length - i) + 1 := by omega
    rw [hfuel]
    simp only [read_loop]
    rw [if_pos ⟨hk, by simpa using hsize⟩]
    have hns : ¬ (cumLen chunks i + (chunks.getD i ([], 0)).2 ≤ offset) := by
      rw [← cumLen_succ chunks i hk]
      omega
    rw [if_neg hns, hmiss]
  | succ d ih =>
    intro i hik hd
    have hik' : i < k := by omega
    have hilen : i < chunks.length := by omega
    have hfuel : chunks.length + 1 - i = (chunks.length - i) + 1 := by omega
    rw [hfuel]
    simp only [read_loop]
    rw [if_pos ⟨hilen, by simpa using hsize⟩]
    have hs : cumLen chunks i + (chunks.getD i ([], 0)).2 ≤ offset := by
      rw [← cumLen_succ chunks i hilen]
      exact hskip i hik'
    rw [if_pos hs]
    rw [← cumLen_succ chunks i hilen]
    have hfuel2 : chunks.length - i = chunks.length + 1 - (i + 1) := by omega
    rw [hfuel2]
    exact ih (i + 1) (by omega) (by omega)

/-- C7 (amended). `read` fails with `NotFound` exactly when no manifest
exists for the path; and when the scan's first visited manifest entry — the
first entry not wholly before the requested offset — has no Chunk Index
entry and the requested size is positive, `read` fails with `EIO`. (Entries
wholly before the offset are skipped without consulting the index, so a
missing entry there is not reported; see the counterexample.) -/
theorem c7_read_error_semantics :
    (∀ (st : FSState) (path : String) (size offset : Nat),
      lookupA st.file_chunks path = none
        ↔ readOp st path size offset = .error .enoent)
    ∧ (∀ (st : FSState) (path : String) (size offset : Nat) (chunks : Manifest)
        (k : Nat),
        lookupA st.file_chunks path = some chunks → 0 < size →
        k < chunks.length →
        (∀ j, j < k → cumLen chunks (j + 1) ≤ offset) →
        offset < cumLen chunks (k + 1) →
        lookupA st.storage.chunk_metadata (chunks.getD k ([], 0)).1 = none →
        readOp st path size offset = .error .eio) := by
  constructor
  · intro st path size offset
    constructor
    · intro h
      simp [readOp, h]
    · intro h
      cases hl : lookupA st.file_chunks path with
      | none => rfl
      | some chunks =>
        rw [readOp, hl] at h
        exact absurd h (read_loop_no_enoent st.storage chunks size offset _ _ _ _ _)
  · intro st path size offset chunks k hl hsize hk hskip hvisit hmiss
    rw [readOp, hl]
    have h := read_loop_first_visited_missing st.storage chunks size offset hsize k hk
      hskip hvisit hmiss k 0 (Nat.zero_le k) rfl
    simpa [cumLen] using h

/-- C7 (witness). The amended theorem at concrete states: reading a path
with no manifest fails with `NotFound`, and reading a one-entry manifest
whose digest is absent from the Chunk Index fails with `EIO`. -/
theorem c7_witness :
    readOp emptyFS "/x" 4 0 = .error .enoent
    ∧ readOp c7wstate "/w" 4 0 = .error .eio :=
  ⟨(c7_read_error_semantics.1 emptyFS "/x" 4 0).mp rfl,
   c7_read_error_semantics.2 c7wstate "/w" 4 0 [(d1, 3)] 0 rfl (by decide)
     (by decide) (fun j hj => absurd hj (Nat.not_lt_zero j)) (by decide) rfl⟩

/-- C7 (counterexample). The manifest of `/g` contains `(d1, 5)` and `d1`
has no Chunk Index entry, yet `read("/g", 5, 5)` succeeds: the first chunk
lies wholly before the requested offset, so it is skipped without the index
being consulted, and no `EIO` is raised. -/
theorem c7_counterexample :
    lookupA c7state.storage.chunk_metadata d1 = none
    ∧ (d1, 5) ∈ (lookupA c7state.file_chunks "/g").getD []
    ∧ readOp c7state "/g" 5 5 = .ok [5, 6, 7, 8, 9] :=
  ⟨rfl, by decide, rfl⟩

/-- C9 (confirmed). `get_container_size` returns 0 when the container file
is absent from the store directory and the file's byte length when present;
it is a total function and never raises. -/
theorem c9_get_container_size (s : Storage) (name : String) :
    (lookupA s.containers name = none → get_container_size s name = 0)
    ∧ ∀ bytes, lookupA s.containers name = some bytes →
        get_container_size s name = bytes.length := by
  constructor
  · intro h
    simp [get_container_size, h]
  · intro bytes h
    simp [get_container_size, h]

/-- C9 (witness). The container-size theorem at a missing and at a present
container. -/
theorem c9_witness :
    get_container_size emptyFS.storage "f.container" = 0
    ∧ get_container_size c2storage "a.container" = 2 :=
  ⟨(c9_get_container_size emptyFS.storage "f.container").1 rfl,
   (c9_get_container_size c2storage "a.container").2 [1, 2] rfl⟩

/-- C10 (confirmed). `unlink` always returns 0: when a manifest exists it is
removed from the façade map and persisted as the empty list; the backing
file is erased only when present; with neither manifest nor backing file the
state is unchanged and the return value is still 0. -/
theorem c10_unlink (st : FSState) (path : String) :
    (unlinkOp st path).2 = 0
    ∧ ((lookupA st.file_chunks path).isSome →
        lookupA (unlinkOp st path).1.file_chunks path = none
        ∧ lookupA (unlinkOp st path).1.storage.file_chunks path = some [])
    ∧ (lookupA st.file_chunks path = none ∧ path ∉ st.backing →
        (unlinkOp st path).1 = st)
    ∧ (path ∉ st.backing → (unlinkOp st path).1.backing = st.backing)
    ∧ (path ∈ st.backing → (unlinkOp st path).1.backing = st.backing.erase path) := by
  refine ⟨rfl, ?_, ?_, ?_, ?_⟩
  · intro h
    by_cases hb : path ∈ st.backing <;>
      simp [unlinkOp, h, hb, store_file_chunks, lookupA_delA_self, lookupA_setA_self]
  · intro h
    simp [unlinkOp, h.1, h.2]
  · intro hb
    by_cases h : (lookupA st.file_chunks path).isSome <;>
      simp [unlinkOp, h, hb]
  · intro hb
    by_cases h : (lookupA st.file_chunks path).isSome <;>
      simp [unlinkOp, h, hb]

/-- C10 (witness). Unlinking `/u`, which has both a manifest and a backing
file, returns 0, drops the manifest, persists the empty list, and removes
the backing file. -/
theorem c10_witness :
    (unlinkOp c10state "/u").2 = 0
    ∧ lookupA (unlinkOp c10state "/u").1.file_chunks "/u" = none
    ∧ lookupA (unlinkOp c10state "/u").1.storage.file_chunks "/u" = some []
    ∧ (unlinkOp c10state "/u").1.backing = c10state.backing.erase "/u" := by
  have h := c10_unlink c10state "/u"
  exact ⟨h.1, (h.2.1 (by decide)).1, (h.2.1 (by decide)).2,
    h.2.2.2.2 (by decide)⟩

end Dedup
